import Mathlib

/-!
Shallow embedding of the llmapi Go package (files types.go and interface.go):
a provider-agnostic content-block data model for LLM conversations, together
with the pure reduction functions over block sequences. Go slices are modelled
as lists, Go nil pointers as Option.none, Go string-typed enums as strings,
and Go struct literals as structure literals whose omitted fields take the Go
zero value via Lean default field values.
-/

/-- Go type ContentType (types.go): a string-typed discriminant for content blocks. -/
abbrev ContentType := String

/-- Go type Role (types.go): a string-typed sender identifier. -/
abbrev Role := String

/-- Go type MediaType (types.go): a string-typed MIME type. -/
abbrev MediaType := String

/-- Go float64, modelled as exact rationals: every floating-point literal
appearing in this repository (0, 1.0) is exactly representable, and the
repository performs no arithmetic on these fields. -/
abbrev Float64 := Rat

def ContentTypeText : ContentType := "text"

def ContentTypeImage : ContentType := "image"

def ContentTypeToolUse : ContentType := "tool_use"

def ContentTypeToolResult : ContentType := "tool_result"

def ContentTypeThinking : ContentType := "thinking"

def ContentTypeDocument : ContentType := "document"

def RoleUser : Role := "user"

def RoleAssistant : Role := "assistant"

def RoleSystem : Role := "system"

def MediaTypePNG : MediaType := "image/png"

def MediaTypeJPEG : MediaType := "image/jpeg"

def MediaTypeGIF : MediaType := "image/gif"

def MediaTypeWebP : MediaType := "image/webp"

def MediaTypePDF : MediaType := "application/pdf"

/-- Go struct ImageSource (types.go). -/
structure ImageSource where
  type : String := ""
  mediaType : MediaType := ""
  data : String := ""
  url : String := ""
deriving DecidableEq

/-- Go struct ImageContent (types.go). -/
structure ImageContent where
  source : ImageSource := {}
deriving DecidableEq

/-- Go struct ToolUseContent (types.go). The Input field is an opaque,
already-encoded JSON payload (json.RawMessage), modelled as an opaque string
of bytes that this layer passes through without interpretation. -/
structure ToolUseContent where
  id : String := ""
  name : String := ""
  input : String := ""
deriving DecidableEq

/-- Go struct ToolResultContent (types.go). -/
structure ToolResultContent where
  toolUseID : String := ""
  content : String := ""
  isError : Bool := false
deriving DecidableEq

/-- Go struct ToolDefinition (types.go); InputSchema is opaque JSON. -/
structure ToolDefinition where
  name : String := ""
  description : String := ""
  inputSchema : String := ""
deriving DecidableEq

/-- Go struct ThinkingContent (types.go). -/
structure ThinkingContent where
  thinking : String := ""
  signature : String := ""
deriving DecidableEq

/-- Go struct DocumentSource (types.go). -/
structure DocumentSource where
  type : String := ""
  mediaType : MediaType := ""
  data : String := ""
deriving DecidableEq

/-- Go struct DocumentContent (types.go). -/
structure DocumentContent where
  source : DocumentSource := {}
  title : String := ""
deriving DecidableEq

/-- Go struct ContentBlock (types.go): a tagged-union-like record with one
discriminant and several optional payloads (Go nil pointers become none). -/
structure ContentBlock where
  type : ContentType := ""
  text : String := ""
  image : Option ImageContent := none
  toolUse : Option ToolUseContent := none
  toolResult : Option ToolResultContent := none
  thinking : Option ThinkingContent := none
  document : Option DocumentContent := none
deriving DecidableEq

/-- Go struct Message (types.go): the flat message representation. -/
structure Message where
  role : Role := ""
  content : String := ""
deriving DecidableEq

/-- Go struct RichMessage (types.go). -/
structure RichMessage where
  role : Role := ""
  content : List ContentBlock := []
deriving DecidableEq

/-- Go method RichMessage.ToMessage (types.go): flattens the block sequence to
plain text by a single in-order loop with a string accumulator, translating the
Go for/switch loop as a left fold. -/
def RichMessage.ToMessage (rm : RichMessage) : Message :=
  let text := rm.content.foldl
    (fun text block =>
      if block.type = ContentTypeText then
        text ++ block.text
      else if block.type = ContentTypeThinking then
        match block.thinking with
        | some th => text ++ "<thinking>\n" ++ th.thinking ++ "\n</thinking>\n"
        | none => text
      else
        text)
    ""
  { role := rm.role, content := text }

/-- Go struct RichResponse (types.go). Go int is modelled as Int. -/
structure RichResponse where
  content : List ContentBlock := []
  stopReason : String := ""
  inputTokens : Int := 0
  outputTokens : Int := 0
deriving DecidableEq

/-- The Go zero-value literal RichResponse\x7b\x7d. -/
def emptyRichResponse : RichResponse := {}

/-- Go method RichResponse.Text (types.go): concatenates the Text field of the
text blocks, in order, by a single loop with a string accumulator. -/
def RichResponse.Text (rr : RichResponse) : String :=
  rr.content.foldl
    (fun text block =>
      if block.type = ContentTypeText then text ++ block.text else text)
    ""

/-- Go method RichResponse.ThinkingText (types.go): concatenates the
Thinking.Thinking field of the thinking blocks whose payload pointer is
non-nil, in order. -/
def RichResponse.ThinkingText (rr : RichResponse) : String :=
  rr.content.foldl
    (fun text block =>
      if block.type = ContentTypeThinking then
        match block.thinking with
        | some th => text ++ th.thinking
        | none => text
      else
        text)
    ""

/-- Go method RichResponse.ToolUses (types.go): collects the dereferenced
ToolUse payloads of the tool_use blocks whose payload pointer is non-nil,
in order, by a loop appending to a slice (nil slice when none). -/
def RichResponse.ToolUses (rr : RichResponse) : List ToolUseContent :=
  rr.content.foldl
    (fun uses block =>
      if block.type = ContentTypeToolUse then
        match block.toolUse with
        | some tu => uses ++ [tu]
        | none => uses
      else
        uses)
    []

/-- Go method RichResponse.HasToolUse (types.go): len of ToolUses greater
than zero. -/
def RichResponse.HasToolUse (rr : RichResponse) : Bool :=
  decide (rr.ToolUses.length > 0)

/-- Go function NewTextBlock (types.go). -/
def NewTextBlock (text : String) : ContentBlock :=
  { type := ContentTypeText, text := text }

/-- Go function NewImageBlock (types.go). -/
def NewImageBlock (mediaType : MediaType) (base64Data : String) : ContentBlock :=
  { type := ContentTypeImage,
    image := some { source := { type := "base64", mediaType := mediaType, data := base64Data } } }

/-- Go function NewImageBlockFromURL (types.go). -/
def NewImageBlockFromURL (mediaType : MediaType) (url : String) : ContentBlock :=
  { type := ContentTypeImage,
    image := some { source := { type := "url", mediaType := mediaType, url := url } } }

/-- Go function NewToolResultBlock (types.go). -/
def NewToolResultBlock (toolUseID : String) (content : String) (isError : Bool) : ContentBlock :=
  { type := ContentTypeToolResult,
    toolResult := some { toolUseID := toolUseID, content := content, isError := isError } }

/-- Go function NewThinkingBlock (types.go). -/
def NewThinkingBlock (thinking : String) : ContentBlock :=
  { type := ContentTypeThinking,
    thinking := some { thinking := thinking } }

/-- Go struct Usage (types.go). -/
structure Usage where
  inputTokens : Int := 0
  outputTokens : Int := 0
deriving DecidableEq

/-- Go struct Settings (types.go). The open-ended Extra field, a Go
map from string to any, is modelled as an association list with opaque
payload strings; nothing in this repository reads or writes it, and its
Go zero value (a nil map) is the empty list. -/
structure Settings where
  model : String := ""
  maxTokens : Int := 0
  temperature : Float64 := 0
  topP : Float64 := 0
  topK : Int := 0
  stopSequences : List String := []
  extra : List (String × String) := []
deriving DecidableEq

/-- Go package-level variable DefaultSettings (types.go). -/
def DefaultSettings : Settings :=
  { maxTokens := 2048, temperature := 1 }

/-- Go struct Sampling (interface.go). -/
structure Sampling where
  topK : Int := 0
  temperature : Float64 := 0
  topP : Float64 := 0
deriving DecidableEq

/-- One JSON field clause of a Go struct: the Go field name, the name the
field serializes under with encoding/json (the tag name when a tag is
declared, otherwise the Go field name itself), and whether the tag carries
the omitempty option. -/
structure JsonField where
  goName : String
  jsonName : String
  omitempty : Bool
deriving DecidableEq

/-- JSON field clauses of Go struct ContentBlock, transcribed from the
struct tags in types.go. -/
def contentBlockJson : List JsonField :=
  [⟨"Type", "type", false⟩,
   ⟨"Text", "text", true⟩,
   ⟨"Image", "image", true⟩,
   ⟨"ToolUse", "tool_use", true⟩,
   ⟨"ToolResult", "tool_result", true⟩,
   ⟨"Thinking", "thinking", true⟩,
   ⟨"Document", "document", true⟩]

/-- JSON field clauses of Go struct ImageSource, transcribed from the
struct tags in types.go. -/
def imageSourceJson : List JsonField :=
  [⟨"Type", "type", false⟩,
   ⟨"MediaType", "media_type", false⟩,
   ⟨"Data", "data", true⟩,
   ⟨"URL", "url", true⟩]

/-- JSON field clauses of Go struct ToolResultContent, transcribed from the
struct tags in types.go. -/
def toolResultContentJson : List JsonField :=
  [⟨"ToolUseID", "tool_use_id", false⟩,
   ⟨"Content", "content", false⟩,
   ⟨"IsError", "is_error", true⟩]

/-- JSON field clauses of Go struct ToolDefinition, transcribed from the
struct tags in types.go. -/
def toolDefinitionJson : List JsonField :=
  [⟨"Name", "name", false⟩,
   ⟨"Description", "description", false⟩,
   ⟨"InputSchema", "input_schema", false⟩]

/-- JSON field clauses of Go struct DocumentSource, transcribed from the
struct tags in types.go. -/
def documentSourceJson : List JsonField :=
  [⟨"Type", "type", false⟩,
   ⟨"MediaType", "media_type", false⟩,
   ⟨"Data", "data", false⟩]

/-- JSON field clauses of Go struct RichResponse, transcribed from the
struct tags in types.go. -/
def richResponseJson : List JsonField :=
  [⟨"Content", "content", false⟩,
   ⟨"StopReason", "stop_reason", false⟩,
   ⟨"InputTokens", "input_tokens", false⟩,
   ⟨"OutputTokens", "output_tokens", false⟩]

/-- JSON field clauses of Go struct Usage: types.go declares no struct tags
on Usage, so encoding/json serializes its exported fields under the Go field
names themselves. -/
def usageJson : List JsonField :=
  [⟨"InputTokens", "InputTokens", false⟩,
   ⟨"OutputTokens", "OutputTokens", false⟩]

/-- Spec-side description of RichMessage.ToMessage flattening (section 4.2 of
the specification): scan the block sequence in order, appending the Text of
text blocks verbatim, the literal wrapper around the Thinking payload of
thinking blocks whose payload is present, and nothing for any other block. -/
def specFlatten : List ContentBlock → String
  | [] => ""
  | block :: rest =>
    (if block.type = ContentTypeText then
      block.text
    else if block.type = ContentTypeThinking then
      match block.thinking with
      | some th => "<thinking>\n" ++ th.thinking ++ "\n</thinking>\n"
      | none => ""
    else "") ++ specFlatten rest

/-- Spec-side description of RichResponse.Text: the in-order concatenation of
the Text field of exactly those blocks whose Type is text. -/
def specText (bs : List ContentBlock) : String :=
  String.join ((bs.filter fun b => b.type = ContentTypeText).map fun b => b.text)

/-- Spec-side description of RichResponse.ThinkingText: the in-order
concatenation of Thinking.Thinking over exactly those blocks whose Type is
thinking and whose Thinking payload is present. -/
def specThinkingText (bs : List ContentBlock) : String :=
  String.join (bs.filterMap fun b =>
    if b.type = ContentTypeThinking then
      match b.thinking with
      | some th => some th.thinking
      | none => none
    else none)

/-- Spec-side description of RichResponse.ToolUses: the dereferenced ToolUse
payloads of exactly those blocks whose Type is tool_use and whose ToolUse
payload is present, in order. -/
def specToolUses (bs : List ContentBlock) : List ToolUseContent :=
  bs.filterMap fun b =>
    if b.type = ContentTypeToolUse then b.toolUse else none

/-- Spec invariant (section 3): every present payload pointer matches the
Type discriminant of its block. -/
def payloadMatchesType (b : ContentBlock) : Prop :=
  (b.image.isSome → b.type = ContentTypeImage) ∧
  (b.toolUse.isSome → b.type = ContentTypeToolUse) ∧
  (b.toolResult.isSome → b.type = ContentTypeToolResult) ∧
  (b.thinking.isSome → b.type = ContentTypeThinking) ∧
  (b.document.isSome → b.type = ContentTypeDocument)

/-! ### Helper lemmas -/

theorem string_join_nil : String.join [] = "" := rfl

theorem thinking_ne_text : ¬ (ContentTypeThinking = ContentTypeText) := by decide

theorem toolUse_ne_text : ¬ (ContentTypeToolUse = ContentTypeText) := by decide

theorem toolUse_ne_thinking : ¬ (ContentTypeToolUse = ContentTypeThinking) := by decide

theorem thinking_ne_toolUse : ¬ (ContentTypeThinking = ContentTypeToolUse) := by decide

theorem string_foldl_append (ss : List String) : ∀ a : String,
    ss.foldl (fun r s => r ++ s) a = a ++ String.join ss := by
  induction ss with
  | nil => intro a; simp [String.join]
  | cons s ss ih =>
    intro a
    show ss.foldl (fun r s => r ++ s) (a ++ s) = a ++ String.join (s :: ss)
    rw [ih]
    have hcons : String.join (s :: ss) = s ++ String.join ss := by
      show ss.foldl (fun r s => r ++ s) ("" ++ s) = s ++ String.join ss
      rw [ih]; simp
    rw [hcons, String.append_assoc]

theorem string_join_cons (s : String) (ss : List String) :
    String.join (s :: ss) = s ++ String.join ss := by
  show ss.foldl (fun r s => r ++ s) ("" ++ s) = s ++ String.join ss
  rw [string_foldl_append]; simp

theorem toMessage_foldl (bs : List ContentBlock) : ∀ acc : String,
    bs.foldl
      (fun text block =>
        if block.type = ContentTypeText then
          text ++ block.text
        else if block.type = ContentTypeThinking then
          match block.thinking with
          | some th => text ++ "<thinking>\n" ++ th.thinking ++ "\n</thinking>\n"
          | none => text
        else
          text)
      acc = acc ++ specFlatten bs := by
  induction bs with
  | nil => intro acc; simp [specFlatten]
  | cons b bs ih =>
    intro acc
    rw [List.foldl_cons, ih, specFlatten]
    by_cases h1 : b.type = ContentTypeText
    · simp [h1, String.append_assoc]
    · by_cases h2 : b.type = ContentTypeThinking
      · cases hb : b.thinking with
        | some th => simp [h1, h2, hb, thinking_ne_text, String.append_assoc]
        | none => simp [h1, h2, hb, thinking_ne_text]
      · simp [h1, h2]

theorem specText_nil : specText [] = "" := rfl

theorem specText_cons (b : ContentBlock) (bs : List ContentBlock) :
    specText (b :: bs) =
      (if b.type = ContentTypeText then b.text else "") ++ specText bs := by
  by_cases h : b.type = ContentTypeText
  · simp [specText, List.filter_cons, h, string_join_cons]
  · simp [specText, List.filter_cons, h]

theorem text_foldl (bs : List ContentBlock) : ∀ acc : String,
    bs.foldl
      (fun text block =>
        if block.type = ContentTypeText then text ++ block.text else text)
      acc = acc ++ specText bs := by
  induction bs with
  | nil => intro acc; simp [specText_nil]
  | cons b bs ih =>
    intro acc
    rw [List.foldl_cons, ih, specText_cons]
    by_cases h : b.type = ContentTypeText
    · simp [h, String.append_assoc]
    · simp [h]

theorem specThinkingText_nil : specThinkingText [] = "" := rfl

theorem specThinkingText_cons (b : ContentBlock) (bs : List ContentBlock) :
    specThinkingText (b :: bs) =
      (if b.type = ContentTypeThinking then
        match b.thinking with
        | some th => th.thinking
        | none => ""
      else "") ++ specThinkingText bs := by
  by_cases h : b.type = ContentTypeThinking
  · cases hb : b.thinking with
    | some th => simp [specThinkingText, List.filterMap_cons, h, hb, string_join_cons]
    | none => simp [specThinkingText, List.filterMap_cons, h, hb]
  · simp [specThinkingText, List.filterMap_cons, h]

theorem thinking_foldl (bs : List ContentBlock) : ∀ acc : String,
    bs.foldl
      (fun text block =>
        if block.type = ContentTypeThinking then
          match block.thinking with
          | some th => text ++ th.thinking
          | none => text
        else
          text)
      acc = acc ++ specThinkingText bs := by
  induction bs with
  | nil => intro acc; simp [specThinkingText_nil]
  | cons b bs ih =>
    intro acc
    rw [List.foldl_cons, ih, specThinkingText_cons]
    by_cases h : b.type = ContentTypeThinking
    · cases hb : b.thinking with
      | some th => simp [h, hb, String.append_assoc]
      | none => simp [h, hb]
    · simp [h]

theorem specToolUses_nil : specToolUses [] = [] := rfl

theorem specToolUses_cons (b : ContentBlock) (bs : List ContentBlock) :
    specToolUses (b :: bs) =
      (if b.type = ContentTypeToolUse then b.toolUse.toList else []) ++ specToolUses bs := by
  by_cases h : b.type = ContentTypeToolUse
  · cases hb : b.toolUse with
    | some tu => simp [specToolUses, List.filterMap_cons, h, hb]
    | none => simp [specToolUses, List.filterMap_cons, h, hb]
  · simp [specToolUses, List.filterMap_cons, h]

theorem toolUses_foldl (bs : List ContentBlock) : ∀ acc : List ToolUseContent,
    bs.foldl
      (fun uses block =>
        if block.type = ContentTypeToolUse then
          match block.toolUse with
          | some tu => uses ++ [tu]
          | none => uses
        else
          uses)
      acc = acc ++ specToolUses bs := by
  induction bs with
  | nil => intro acc; simp [specToolUses_nil]
  | cons b bs ih =>
    intro acc
    rw [List.foldl_cons, ih, specToolUses_cons]
    by_cases h : b.type = ContentTypeToolUse
    · cases hb : b.toolUse with
      | some tu => simp [h, hb]
      | none => simp [h, hb]
    · simp [h]

theorem specFlatten_append (xs ys : List ContentBlock) :
    specFlatten (xs ++ ys) = specFlatten xs ++ specFlatten ys := by
  induction xs with
  | nil => simp [specFlatten]
  | cons x xs ih => simp [specFlatten, ih, String.append_assoc]

theorem specText_append (xs ys : List ContentBlock) :
    specText (xs ++ ys) = specText xs ++ specText ys := by
  induction xs with
  | nil => simp [specText_nil]
  | cons x xs ih => simp [specText_cons, ih, String.append_assoc]

theorem specThinkingText_append (xs ys : List ContentBlock) :
    specThinkingText (xs ++ ys) = specThinkingText xs ++ specThinkingText ys := by
  induction xs with
  | nil => simp [specThinkingText_nil]
  | cons x xs ih => simp [specThinkingText_cons, ih, String.append_assoc]

theorem specToolUses_append (xs ys : List ContentBlock) :
    specToolUses (xs ++ ys) = specToolUses xs ++ specToolUses ys := by
  induction xs with
  | nil => simp [specToolUses_nil]
  | cons x xs ih => simp [specToolUses_cons, ih]

theorem toMessage_spec (rm : RichMessage) :
    rm.ToMessage = { role := rm.role, content := specFlatten rm.content } := by
  simp [RichMessage.ToMessage, toMessage_foldl]

theorem specFlatten_all_text (bs : List ContentBlock)
    (h : ∀ b ∈ bs, b.type = ContentTypeText) :
    specFlatten bs = String.join (bs.map fun b => b.text) := by
  induction bs with
  | nil => simp [specFlatten, string_join_nil]
  | cons b bs ih =>
    have hb := h b (List.mem_cons_self b bs)
    have ihr := ih fun x hx => h x (List.mem_cons_of_mem b hx)
    simp [specFlatten, hb, string_join_cons, ihr]

/-! ### Claim theorems -/

/-- Claim C1: for every RichMessage rm, rm.ToMessage returns a Message whose
Role equals rm.Role and whose Content is the in-order scan of rm.Content that
directly concatenates, with no added separators, the Text of text blocks
verbatim, the exact wrapped string for thinking blocks whose payload is
present, and nothing for blocks of any other Type (specFlatten renders this
description of the specification). -/
theorem C1_toMessage_flattening (rm : RichMessage) :
    rm.ToMessage = { role := rm.role, content := specFlatten rm.content } :=
  toMessage_spec rm

/-- Claim C2: each provided constructor never fails, stores its inputs
verbatim without validation, and returns exactly the ContentBlock specified
for its kind: the matching discriminant, the matching payload holding the
inputs, every other payload field absent or empty, and the
populated-payload-matches-Type invariant holding for the result. -/
theorem C2_constructors_exact :
    (∀ t, NewTextBlock t =
      { type := ContentTypeText, text := t, image := none, toolUse := none,
        toolResult := none, thinking := none, document := none } ∧
      payloadMatchesType (NewTextBlock t)) ∧
    (∀ mt d, NewImageBlock mt d =
      { type := ContentTypeImage, text := "",
        image := some { source := { type := "base64", mediaType := mt, data := d, url := "" } },
        toolUse := none, toolResult := none, thinking := none, document := none } ∧
      payloadMatchesType (NewImageBlock mt d)) ∧
    (∀ mt u, NewImageBlockFromURL mt u =
      { type := ContentTypeImage, text := "",
        image := some { source := { type := "url", mediaType := mt, data := "", url := u } },
        toolUse := none, toolResult := none, thinking := none, document := none } ∧
      payloadMatchesType (NewImageBlockFromURL mt u)) ∧
    (∀ tid c e, NewToolResultBlock tid c e =
      { type := ContentTypeToolResult, text := "", image := none, toolUse := none,
        toolResult := some { toolUseID := tid, content := c, isError := e },
        thinking := none, document := none } ∧
      payloadMatchesType (NewToolResultBlock tid c e)) ∧
    (∀ th, NewThinkingBlock th =
      { type := ContentTypeThinking, text := "", image := none, toolUse := none,
        toolResult := none, thinking := some { thinking := th, signature := "" },
        document := none } ∧
      payloadMatchesType (NewThinkingBlock th)) := by
  refine ⟨fun t => ⟨rfl, ?_⟩, fun mt d => ⟨rfl, ?_⟩, fun mt u => ⟨rfl, ?_⟩,
    fun tid c e => ⟨rfl, ?_⟩, fun th => ⟨rfl, ?_⟩⟩ <;>
    simp [payloadMatchesType, NewTextBlock, NewImageBlock, NewImageBlockFromURL,
      NewToolResultBlock, NewThinkingBlock]

/-- Claim C3: for every RichResponse rr, rr.Text equals the in-order
concatenation of the Text field of exactly those blocks in rr.Content whose
Type is text (specText renders this description); for the empty RichResponse
it returns the empty string. -/
theorem C3_text_projection :
    (∀ rr : RichResponse, rr.Text = specText rr.content) ∧
    emptyRichResponse.Text = "" := by
  refine ⟨fun rr => ?_, rfl⟩
  unfold RichResponse.Text
  rw [text_foldl, String.empty_append]

/-- Claim C4: for every RichResponse rr, rr.ThinkingText equals the in-order
concatenation, with no separators, of Thinking.Thinking of exactly those
blocks whose Type is thinking and whose Thinking payload is present
(specThinkingText renders this description). -/
theorem C4_thinkingText_projection (rr : RichResponse) :
    rr.ThinkingText = specThinkingText rr.content := by
  unfold RichResponse.ThinkingText
  rw [thinking_foldl, String.empty_append]

/-- Claim C5: for every RichResponse rr, rr.ToolUses returns the dereferenced
ToolUse payloads of exactly those blocks whose Type is tool_use and whose
ToolUse payload is present, in their order in rr.Content (specToolUses
renders this description), and the empty sequence when there are none, as on
the empty RichResponse. -/
theorem C5_toolUses_projection :
    (∀ rr : RichResponse, rr.ToolUses = specToolUses rr.content) ∧
    emptyRichResponse.ToolUses = [] := by
  refine ⟨fun rr => ?_, rfl⟩
  unfold RichResponse.ToolUses
  rw [toolUses_foldl, List.nil_append]

/-- Claim C6: for every RichResponse rr, rr.HasToolUse returns true if and
only if rr.ToolUses is non-empty; in particular it returns false for the
empty RichResponse. -/
theorem C6_hasToolUse_iff :
    (∀ rr : RichResponse, rr.HasToolUse = true ↔ rr.ToolUses ≠ []) ∧
    emptyRichResponse.HasToolUse = false := by
  refine ⟨fun rr => ?_, rfl⟩
  unfold RichResponse.HasToolUse
  simp [List.length_pos]

/-- Claim C7: the reduction functions ToMessage, Text, ThinkingText, ToolUses
and HasToolUse are total Lean functions even on block sequences violating the
populated-payload-matches-Type invariant, and a block whose expected payload
is absent (Type thinking with no Thinking payload, or Type tool_use with no
ToolUse payload) is a no-op: removing it from anywhere in the sequence leaves
every reduction result unchanged. -/
theorem C7_absent_payload_noop (pre post : List ContentBlock) (b : ContentBlock)
    (h : (b.type = ContentTypeThinking ∧ b.thinking = none) ∨
         (b.type = ContentTypeToolUse ∧ b.toolUse = none)) :
    (∀ role : Role,
      RichMessage.ToMessage ⟨role, pre ++ b :: post⟩ =
        RichMessage.ToMessage ⟨role, pre ++ post⟩) ∧
    (∀ sr : String, ∀ itok otok : Int,
      RichResponse.Text ⟨pre ++ b :: post, sr, itok, otok⟩ =
        RichResponse.Text ⟨pre ++ post, sr, itok, otok⟩ ∧
      RichResponse.ThinkingText ⟨pre ++ b :: post, sr, itok, otok⟩ =
        RichResponse.ThinkingText ⟨pre ++ post, sr, itok, otok⟩ ∧
      RichResponse.ToolUses ⟨pre ++ b :: post, sr, itok, otok⟩ =
        RichResponse.ToolUses ⟨pre ++ post, sr, itok, otok⟩ ∧
      RichResponse.HasToolUse ⟨pre ++ b :: post, sr, itok, otok⟩ =
        RichResponse.HasToolUse ⟨pre ++ post, sr, itok, otok⟩) := by
  have hflat : specFlatten (pre ++ b :: post) = specFlatten (pre ++ post) := by
    rcases h with ⟨ht, hth⟩ | ⟨ht, htu⟩
    · simp [specFlatten_append, specFlatten, ht, hth, thinking_ne_text]
    · simp [specFlatten_append, specFlatten, ht, toolUse_ne_text, toolUse_ne_thinking]
  have htext : specText (pre ++ b :: post) = specText (pre ++ post) := by
    rcases h with ⟨ht, hth⟩ | ⟨ht, htu⟩
    · simp [specText_append, specText_cons, ht, thinking_ne_text]
    · simp [specText_append, specText_cons, ht, toolUse_ne_text]
  have hthink : specThinkingText (pre ++ b :: post) = specThinkingText (pre ++ post) := by
    rcases h with ⟨ht, hth⟩ | ⟨ht, htu⟩
    · simp [specThinkingText_append, specThinkingText_cons, ht, hth]
    · simp [specThinkingText_append, specThinkingText_cons, ht, toolUse_ne_thinking]
  have htool : specToolUses (pre ++ b :: post) = specToolUses (pre ++ post) := by
    rcases h with ⟨ht, hth⟩ | ⟨ht, htu⟩
    · simp [specToolUses_append, specToolUses_cons, ht, thinking_ne_toolUse]
    · simp [specToolUses_append, specToolUses_cons, ht, htu]
  refine ⟨fun role => ?_, fun sr itok otok => ⟨?_, ?_, ?_, ?_⟩⟩
  · rw [toMessage_spec, toMessage_spec, hflat]
  · show RichResponse.Text _ = RichResponse.Text _
    unfold RichResponse.Text
    rw [text_foldl, text_foldl, htext]
  · show RichResponse.ThinkingText _ = RichResponse.ThinkingText _
    unfold RichResponse.ThinkingText
    rw [thinking_foldl, thinking_foldl, hthink]
  · show RichResponse.ToolUses _ = RichResponse.ToolUses _
    unfold RichResponse.ToolUses
    rw [toolUses_foldl, toolUses_foldl, htool]
  · show RichResponse.HasToolUse _ = RichResponse.HasToolUse _
    unfold RichResponse.HasToolUse RichResponse.ToolUses
    rw [toolUses_foldl, toolUses_foldl, htool]

/-- Claim C7 witness: a concrete thinking-typed block with absent payload is
ignored by ToMessage, obtained by applying the C7 theorem at explicit inputs. -/
theorem C7_absent_payload_noop_witness :
    (({ type := ContentTypeThinking } : ContentBlock).type = ContentTypeThinking ∧
      ({ type := ContentTypeThinking } : ContentBlock).thinking = none) ∧
    RichMessage.ToMessage ⟨RoleUser, [{ type := ContentTypeThinking }]⟩ =
      RichMessage.ToMessage ⟨RoleUser, ([] : List ContentBlock)⟩ :=
  ⟨⟨rfl, rfl⟩,
   (C7_absent_payload_noop [] [] { type := ContentTypeThinking }
      (Or.inl ⟨rfl, rfl⟩)).1 RoleUser⟩

/-- Claim C8: for every RichMessage whose Content consists only of text
blocks, ToMessage yields as Content the plain concatenation of the blocks'
Text fields in order, with no characters added or removed. -/
theorem C8_text_only_roundtrip (rm : RichMessage)
    (h : ∀ b ∈ rm.content, b.type = ContentTypeText) :
    rm.ToMessage.content = String.join (rm.content.map fun b => b.text) := by
  simp [RichMessage.ToMessage, toMessage_foldl, specFlatten_all_text rm.content h]

/-- Claim C8 witness: the theorem applied to a concrete two-text-block
message. -/
theorem C8_text_only_roundtrip_witness :
    (RichMessage.mk RoleUser [NewTextBlock "ab", NewTextBlock "cd"]).ToMessage.content =
      String.join ([NewTextBlock "ab", NewTextBlock "cd"].map fun b => b.text) :=
  C8_text_only_roundtrip ⟨RoleUser, [NewTextBlock "ab", NewTextBlock "cd"]⟩ (by decide)

/-- Claim C9 counterexample: the Go struct Usage carries token counts but
declares no JSON struct tags, so it does not declare the snake_case names
input_tokens and output_tokens; its fields serialize under the Go field
names. -/
theorem C9_usage_counterexample :
    ((usageJson.map JsonField.jsonName).contains "input_tokens" = false) ∧
    ((usageJson.map JsonField.jsonName).contains "output_tokens" = false) ∧
    usageJson = [⟨"InputTokens", "InputTokens", false⟩,
                 ⟨"OutputTokens", "OutputTokens", false⟩] := by
  decide

/-- Claim C9 as amended: the tagged structs declare exactly the listed
snake_case JSON names (tool_use_id and is_error on ToolResultContent,
input_schema on ToolDefinition, media_type on ImageSource and DocumentSource,
stop_reason, input_tokens and output_tokens on RichResponse), the optional
payload fields of ContentBlock and is_error carry omitempty, while Usage
declares no tags and therefore serializes under its Go field names
InputTokens and OutputTokens. -/
theorem C9_json_names_amended :
    (⟨"ToolUseID", "tool_use_id", false⟩ ∈ toolResultContentJson) ∧
    (⟨"IsError", "is_error", true⟩ ∈ toolResultContentJson) ∧
    (⟨"InputSchema", "input_schema", false⟩ ∈ toolDefinitionJson) ∧
    (⟨"MediaType", "media_type", false⟩ ∈ imageSourceJson) ∧
    (⟨"MediaType", "media_type", false⟩ ∈ documentSourceJson) ∧
    (⟨"StopReason", "stop_reason", false⟩ ∈ richResponseJson) ∧
    (⟨"InputTokens", "input_tokens", false⟩ ∈ richResponseJson) ∧
    (⟨"OutputTokens", "output_tokens", false⟩ ∈ richResponseJson) ∧
    (∀ f ∈ contentBlockJson, f.goName = "Type" ∨ f.omitempty = true) ∧
    usageJson = [⟨"InputTokens", "InputTokens", false⟩,
                 ⟨"OutputTokens", "OutputTokens", false⟩] := by
  decide

/-- Claim C10: DefaultSettings is a Settings record with MaxTokens 2048 and
Temperature 1.0, and every other field at its zero or empty value. -/
theorem C10_defaultSettings :
    DefaultSettings.maxTokens = 2048 ∧ DefaultSettings.temperature = 1 ∧
    DefaultSettings.model = "" ∧ DefaultSettings.topP = 0 ∧
    DefaultSettings.topK = 0 ∧ DefaultSettings.stopSequences = [] ∧
    DefaultSettings.extra = [] :=
  ⟨rfl, rfl, rfl, rfl, rfl, rfl, rfl⟩
